import Mathlib

/-!
Verification development for the affiliation-classification and article-metadata
subsystem of the pubmed-paper-fetcher repository.

Strings are modelled as lists of characters (`Str`).  Python regular expressions
are embedded either through a small Brzozowski-derivative engine (when only the
existence of a match matters, as in `is_company_affiliation`) or through bespoke
leftmost/greedy matchers that mirror the backtracking behaviour of the Python
`re` module (when the matched span is returned, as in `extract_email` and
`extract_company_name`).  XML documents handled by `xml.etree.ElementTree` are
modelled by the inductive type `Element`; `find`/`findall` with the path forms
actually used by the source (`.//T`, `T`, `A/B`, `.//A/B`) are modelled by the
corresponding document-order searches.
-/

/-- Strings of the Python program, modelled as lists of characters. -/
abbrev Str := List Char

/-- Characters matched by the Python regex class `\s` (ASCII scope). -/
def isPySpace (c : Char) : Bool :=
  c == ' ' || c == '\t' || c == '\n' || c == '\r' || c == '\x0b' || c == '\x0c'

/-- ASCII upper-case letters, the regex class `[A-Z]`. -/
def isAZupper (c : Char) : Bool := 'A' ≤ c && c ≤ 'Z'

/-- ASCII lower-case letters, the regex class `[a-z]`. -/
def isazlower (c : Char) : Bool := 'a' ≤ c && c ≤ 'z'

/-- ASCII letters, the regex class `[a-zA-Z]`. -/
def isAsciiAlphaC (c : Char) : Bool := isAZupper c || isazlower c

/-- ASCII digits, the regex class `[0-9]`. -/
def isDigitC (c : Char) : Bool := '0' ≤ c && c ≤ '9'

/-- Python `str.lower()` (ASCII scope). -/
def pyLower (s : Str) : Str := s.map Char.toLower

/-- Python `str.strip()`: remove leading and trailing whitespace. -/
def pyStrip (s : Str) : Str :=
  ((s.dropWhile isPySpace).reverse.dropWhile isPySpace).reverse

/-- Python `str.isalpha()` (ASCII scope): non-empty and all alphabetic. -/
def pyIsAlpha (s : Str) : Bool := !s.isEmpty && s.all isAsciiAlphaC

/-- Python `str.zfill(2)`: left-pad with zeros to width two. -/
def zfill2 (s : Str) : Str := List.replicate (2 - s.length) '0' ++ s

/-- Regular expressions over characters: the fragment used by the source. -/
inductive RE where
  | emp : RE
  | eps : RE
  | cls (p : Char → Bool) : RE
  | seq (r₁ r₂ : RE) : RE
  | alt (r₁ r₂ : RE) : RE
  | star (r : RE) : RE

/-- Whether a regular expression accepts the empty string. -/
def RE.nullable : RE → Bool
  | .emp => false
  | .eps => true
  | .cls _ => false
  | .seq a b => a.nullable && b.nullable
  | .alt a b => a.nullable || b.nullable
  | .star _ => true

/-- Smart sequencing constructor (keeps derivative terms small). -/
def RE.seqS : RE → RE → RE
  | .emp, _ => .emp
  | .eps, b => b
  | a, b => .seq a b

/-- Smart alternation constructor (keeps derivative terms small). -/
def RE.altS : RE → RE → RE
  | .emp, b => b
  | a, .emp => a
  | a, b => .alt a b

/-- Brzozowski derivative of a regular expression by one character. -/
def RE.deriv : RE → Char → RE
  | .emp, _ => .emp
  | .eps, _ => .emp
  | .cls p, c => if p c then .eps else .emp
  | .seq a b, c =>
      if a.nullable then RE.altS (RE.seqS (a.deriv c) b) (b.deriv c)
      else RE.seqS (a.deriv c) b
  | .alt a b, c => RE.altS (a.deriv c) (b.deriv c)
  | .star r, c => RE.seqS (r.deriv c) (.star r)

/-- Whether a regular expression matches the whole string. -/
def RE.fullmatch (r : RE) (s : Str) : Bool := (s.foldl RE.deriv r).nullable

/-- Single-character regex. -/
def chrC (c : Char) : RE := RE.cls (fun d => d == c)

/-- Literal-string regex. -/
def strRE (s : Str) : RE := s.foldr (fun c r => RE.seq (chrC c) r) RE.eps

/-- Ordered alternation of a list of regexes. -/
def altList : List RE → RE
  | [] => RE.emp
  | [r] => r
  | r :: rs => RE.alt r (altList rs)

/-- Alternation of literal strings, in list order. -/
def oneOfRE (ws : List Str) : RE := altList (ws.map strRE)

/-- The regex `r+`. -/
def rePlus (r : RE) : RE := RE.seq r (RE.star r)

/-- The regex `r?`. -/
def reOpt (r : RE) : RE := RE.alt r RE.eps

/-- The regex class `\s`. -/
def wsC : RE := RE.cls isPySpace

/-- The regex class `[A-Z]`. -/
def upperC : RE := RE.cls isAZupper

/-- The regex class `[a-z]`. -/
def lowerCRE : RE := RE.cls isazlower

/-- A regex matching any single character (used to embed `re.search`). -/
def anyC : RE := RE.cls (fun _ => true)

/-- ACADEMIC_KEYWORDS of AffiliationDetector, in source order. -/
def ACADEMIC_KEYWORDS : List Str :=
  [ "university".data, "college".data, "institute".data, "school".data,
    "academy".data, "hospital".data, "medical center".data, "clinic".data,
    "foundation".data, "laboratory".data, "lab".data, "center for".data,
    "department of".data, "faculty".data, "division of".data, "national".data,
    "federal".data, "ministry".data, "government".data, "association".data,
    "society".data, "organization".data ]

/-- COMPANY_KEYWORDS of AffiliationDetector, in source order. -/
def COMPANY_KEYWORDS : List Str :=
  [ "pharma".data, "biotech".data, "therapeutics".data, "biosciences".data,
    "laboratories".data, "inc".data, "corp".data, "llc".data, "ltd".data,
    "co".data, "company".data, "gmbh".data, "ag".data, "sa".data, "bv".data,
    "plc".data, "biopharmaceutical".data, "pharmaceutical".data, "drug".data,
    "medicine".data, "health".data ]

/-- The legal-entity suffix alternatives `Inc|Corp|LLC|Ltd|GmbH|AG|SA|BV|PLC`,
in the order they appear in every regex of the source. -/
def legalSuffixes : List Str :=
  [ "Inc".data, "Corp".data, "LLC".data, "Ltd".data, "GmbH".data, "AG".data,
    "SA".data, "BV".data, "PLC".data ]

/-- The corporate-suffix words of the regex on line 54 of affiliations.py. -/
def corpEndWords : List Str :=
  [ "company".data, "corporation".data, "inc".data, "corp".data, "llc".data,
    "ltd".data ]

/-- Core of the anchored regex on line 50 of affiliations.py:
`^\s*[A-Z][a-z]+(?:\s+[A-Z][a-z]+)*\s*,?\s*(?:Inc|Corp|LLC|Ltd|GmbH|AG|SA|BV|PLC)`. -/
def p1core : RE :=
  RE.seq (RE.star wsC)
    (RE.seq upperC
      (RE.seq (rePlus lowerCRE)
        (RE.seq (RE.star (RE.seq (rePlus wsC) (RE.seq upperC (rePlus lowerCRE))))
          (RE.seq (RE.star wsC)
            (RE.seq (reOpt (chrC ','))
              (RE.seq (RE.star wsC) (oneOfRE legalSuffixes)))))))

/-- Whether `re.search` of the line-50 pattern succeeds: the pattern is
anchored with `^`, so a match is a match of the core at the start of the
string followed by arbitrary text. -/
def matchP1 (s : Str) : Bool := RE.fullmatch (RE.seq p1core (RE.star anyC)) s

/-- Whether `re.search(r'(?:company|corporation|inc|corp|llc|ltd)\s*$', s)`
succeeds (line 54 of affiliations.py): arbitrary text, then one of the words,
then whitespace up to the end of the string. -/
def matchP2 (s : Str) : Bool :=
  RE.fullmatch
    (RE.seq (RE.star anyC) (RE.seq (oneOfRE corpEndWords) (RE.star wsC))) s

/-- Whether `re.search(r'(?:Inc|Corp|LLC|Ltd|GmbH|AG|SA|BV|PLC)\.?(?:\s|$)', s)`
succeeds (line 64 of affiliations.py): a suffix, an optional period, then
either a whitespace character (and anything after) or the end of the string. -/
def matchP3 (s : Str) : Bool :=
  RE.fullmatch
    (RE.seq (RE.star anyC)
      (RE.seq (oneOfRE legalSuffixes)
        (RE.seq (reOpt (chrC '.'))
          (RE.alt (RE.seq wsC (RE.star anyC)) RE.eps)))) s

/-- Python's substring test `kw in s`, as a Boolean. -/
def inStr (kw s : Str) : Bool := decide (kw <:+: s)

/-- AffiliationDetector.is_company_affiliation (affiliations.py lines 25-67).
Python's `kw in text` substring test is modelled by `inStr`; the two
keyword loops return at the first company keyword found, so they are modelled
by `List.find?`. -/
def is_company_affiliation (affiliation : Str) : Bool :=
  if affiliation.isEmpty then false
  else
    let affiliation_lower := pyLower affiliation
    match COMPANY_KEYWORDS.find? (fun kw => inStr kw affiliation_lower) with
    | some _ =>
      match ACADEMIC_KEYWORDS.find? (fun kw => inStr kw affiliation_lower) with
      | some _ =>
        if matchP1 affiliation then true
        else if matchP2 affiliation_lower then true
        else false
      | none => true
    | none =>
      if matchP3 affiliation then true else false

/-- Characters of the regex class `[a-zA-Z0-9._%+-]` (email local part). -/
def isEmailLocalC (c : Char) : Bool :=
  isAsciiAlphaC c || isDigitC c || c == '.' || c == '_' || c == '%' || c == '+' || c == '-'

/-- Characters of the regex class `[a-zA-Z0-9.-]` (email domain part). -/
def isEmailDomC (c : Char) : Bool :=
  isAsciiAlphaC c || isDigitC c || c == '.' || c == '-'

/-- Greedy backtracking matcher for `[a-zA-Z0-9.-]+\.[a-zA-Z]{2,}` at the head
of the string, returning the matched span.  The recursion prefers to extend
the `+` run (longest first), exactly as the Python engine backtracks. -/
def matchDomTail : List Char → Option (List Char)
  | [] => none
  | c :: cs =>
    if isEmailDomC c then
      match matchDomTail cs with
      | some r => some (c :: r)
      | none =>
        match cs with
        | '.' :: ds =>
          let ls := ds.takeWhile isAsciiAlphaC
          if 2 ≤ ls.length then some (c :: '.' :: ls) else none
        | _ => none
    else none

/-- Matcher for the email pattern
`[a-zA-Z0-9._%+-]+@[a-zA-Z0-9.-]+\.[a-zA-Z]{2,}` anchored at the head of the
string.  The `@` is not in the local-part class, so the greedy `+` run before
it is the maximal run. -/
def matchEmailAt (s : List Char) : Option (List Char) :=
  let r1 := s.takeWhile isEmailLocalC
  if r1.isEmpty then none
  else
    match s.drop r1.length with
    | '@' :: rest => (matchDomTail rest).map (fun r => r1 ++ '@' :: r)
    | _ => none

/-- Leftmost search for the email pattern, as `re.search` does. -/
def searchEmail : List Char → Option (List Char)
  | [] => none
  | c :: cs =>
    match matchEmailAt (c :: cs) with
    | some m => some m
    | none => searchEmail cs

/-- AffiliationDetector.extract_email (affiliations.py lines 98-115). -/
def extract_email (text : Str) : Option Str :=
  if text.isEmpty then none
  else searchEmail text

/-- The alternation `(?:Inc|Corp|LLC|Ltd|GmbH|AG|SA|BV|PLC)\.?` at the head of
the string: the first alternative (in source order) that is a prefix wins, and
the optional period is consumed greedily. -/
def matchSufDot (cs : List Char) : Option (List Char) :=
  match legalSuffixes.find? (fun w => w.isPrefixOf cs) with
  | some w =>
    match cs.drop w.length with
    | '.' :: _ => some (w ++ [ '.' ])
    | _ => some w
  | none => none

/-- Greedy backtracking matcher for
`[a-zA-Z0-9\s]+(?:Inc|Corp|LLC|Ltd|GmbH|AG|SA|BV|PLC)\.?` at the head of the
string, returning the matched span.  Longest `+` run tried first. -/
def matchMidTail : List Char → Option (List Char)
  | [] => none
  | c :: cs =>
    if isAsciiAlphaC c || isDigitC c || isPySpace c then
      match matchMidTail cs with
      | some r => some (c :: r)
      | none => (matchSufDot cs).map (fun r => c :: r)
    else none

/-- Matcher for the company-name pattern of affiliations.py line 84 anchored
at the head of the string. -/
def matchCompanyAt : List Char → Option (List Char)
  | [] => none
  | c :: cs =>
    if isAZupper c then (matchMidTail cs).map (fun r => c :: r) else none

/-- Leftmost search for the company-name pattern, as `re.search` does. -/
def searchCompany : List Char → Option (List Char)
  | [] => none
  | c :: cs =>
    match matchCompanyAt (c :: cs) with
    | some m => some m
    | none => searchCompany cs

/-- Python `affiliation.split(',')[0]`: the segment before the first comma
(the whole string when it has no comma). -/
def splitCommaHead (s : Str) : Str := s.takeWhile (fun c => c ≠ ',')

/-- AffiliationDetector.extract_company_name (affiliations.py lines 70-95).
For a non-empty string `split(',')` always yields at least one part, so the
`if parts:` test of the source is always true there. -/
def extract_company_name (affiliation : Str) : Option Str :=
  if affiliation.isEmpty then none
  else
    match searchCompany affiliation with
    | some m => some (pyStrip m)
    | none =>
      if is_company_affiliation affiliation then
        some (pyStrip (splitCommaHead affiliation))
      else none

/-- One step of the set-building loop of get_company_affiliations: add the
extracted company name when the affiliation classifies as a company and the
name is truthy (non-`None` and non-empty). -/
def addCompany (companies : Finset Str) (affiliation : Str) : Finset Str :=
  if is_company_affiliation affiliation then
    match extract_company_name affiliation with
    | some company_name =>
      if company_name.isEmpty then companies else insert company_name companies
    | none => companies
  else companies

/-- AffiliationDetector.get_company_affiliations (affiliations.py lines
118-136); the Python `set` is modelled as a `Finset`. -/
def get_company_affiliations (affiliations : List Str) : Finset Str :=
  affiliations.foldl addCompany ∅

/-- XML elements as handled by xml.etree.ElementTree: a tag, an attribute
list, optional text, and a list of child elements. -/
inductive Element where
  | mk (tag : Str) (attrib : List (Str × Str)) (text : Option Str)
       (children : List Element)

/-- The tag of an element. -/
def Element.tag : Element → Str
  | .mk t _ _ _ => t

/-- The attribute list of an element. -/
def Element.attrib : Element → List (Str × Str)
  | .mk _ a _ _ => a

/-- The text of an element (`None` when absent). -/
def Element.text : Element → Option Str
  | .mk _ _ x _ => x

/-- The child elements of an element. -/
def Element.children : Element → List Element
  | .mk _ _ _ cs => cs

mutual

/-- All proper descendants of an element, in document (pre-)order: the order
in which ElementTree's `.//` paths iterate the subtree. -/
def Element.descendants : Element → List Element
  | .mk _ _ _ cs => descList cs

/-- All elements of a forest together with their descendants, in document
order. -/
def descList : List Element → List Element
  | [] => []
  | e :: es => e :: Element.descendants e ++ descList es

end

/-- Python `elem.get(key)`: attribute lookup. -/
def Element.getAttr (e : Element) (key : Str) : Option Str :=
  (e.attrib.find? (fun p => p.1 == key)).map (fun p => p.2)

/-- The children of an element carrying a given tag, in order. -/
def childrenWithTag (t : Str) (e : Element) : List Element :=
  e.children.filter (fun c => c.tag == t)

/-- ElementTree `e.find(t)` for a plain child tag. -/
def findChildTag (t : Str) (e : Element) : Option Element :=
  (childrenWithTag t e).head?

/-- The descendants of an element carrying a given tag, in document order:
ElementTree `e.findall(".//t")`. -/
def descendantsWithTag (t : Str) (e : Element) : List Element :=
  e.descendants.filter (fun c => c.tag == t)

/-- ElementTree `e.find(".//t")`. -/
def findDescTag (t : Str) (e : Element) : Option Element :=
  (descendantsWithTag t e).head?

/-- ElementTree `e.findall("t1/t2")`: the t2-children of the t1-children. -/
def findallPath (t1 t2 : Str) (e : Element) : List Element :=
  (childrenWithTag t1 e).flatMap (childrenWithTag t2)

/-- ElementTree `e.find("t1/t2")`. -/
def findPath (t1 t2 : Str) (e : Element) : Option Element :=
  (findallPath t1 t2 e).head?

/-- ElementTree `e.findall(".//t1/t2")`: the t2-children of every t1
descendant, in document order. -/
def findallDescPath (t1 t2 : Str) (e : Element) : List Element :=
  (descendantsWithTag t1 e).flatMap (childrenWithTag t2)

/-- Python `x.text if x is not None and x.text else default`: the text of the
element when present and non-empty, else the default. -/
def textOr (e? : Option Element) (default : Str) : Str :=
  match e? with
  | some e =>
    match e.text with
    | some s => if s.isEmpty then default else s
    | none => default
  | none => default

/-- The truthy text of an optional element: `some s` exactly when the element
exists and its text is present and non-empty. -/
def truthyText (e? : Option Element) : Option Str :=
  match e? with
  | some e =>
    match e.text with
    | some s => if s.isEmpty then none else some s
    | none => none
  | none => none

/-- PubMedParser.extract_title (parser.py lines 15-27). -/
def extract_title (article : Element) : Str :=
  textOr (findDescTag "ArticleTitle".data article) "Unknown Title".data

/-- The month-abbreviation table of C-locale `datetime.strptime` with format
`%b`; the comparison is case-insensitive. -/
def monthAbbrevs : List (Str × Nat) :=
  [ ( "jan".data, 1), ( "feb".data, 2), ( "mar".data, 3), ( "apr".data, 4),
    ( "may".data, 5), ( "jun".data, 6), ( "jul".data, 7), ( "aug".data, 8),
    ( "sep".data, 9), ( "oct".data, 10), ( "nov".data, 11), ( "dec".data, 12) ]

/-- Python `datetime.strptime(s, "%b").month`: succeeds exactly on the twelve
abbreviated month names (case-insensitively), raising ValueError otherwise. -/
def strptimeBmonth (s : Str) : Except Unit Nat :=
  match monthAbbrevs.find? (fun p => p.1 == pyLower s) with
  | some p => Except.ok p.2
  | none => Except.error ()

/-- The body of the `try` block of parser.py lines 53-56, as a possibly
raising computation: when the month string is alphabetic, parse its first
three characters as a month abbreviation and render the month number
zero-filled to two digits; otherwise keep the string unchanged. -/
def convertMonthE (month_str : Str) : Except Unit Str :=
  if pyIsAlpha month_str then
    match strptimeBmonth (month_str.take 3) with
    | Except.ok m => Except.ok (zfill2 (Nat.repr m).data)
    | Except.error e => Except.error e
  else Except.ok month_str

/-- Lines 52-58 of parser.py: the month conversion with its `except` handler,
which substitutes `"XX"` on any conversion failure. -/
def convertMonth (month_str : Str) : Str :=
  match convertMonthE month_str with
  | Except.ok s => s
  | Except.error _ => "XX".data

/-- The date-formatting branch of parser.py lines 60-68. -/
def formatDate (year_str month_str day_str : Str) : Str :=
  if year_str ≠ "XXXX".data then
    if month_str ≠ "XX".data ∧ day_str ≠ "XX".data then
      year_str ++ [ '-' ] ++ month_str ++ [ '-' ] ++ day_str
    else if month_str ≠ "XX".data then year_str ++ [ '-' ] ++ month_str
    else year_str
  else "Unknown Date".data

/-- PubMedParser.extract_publication_date (parser.py lines 29-68). -/
def extract_publication_date (article : Element) : Str :=
  match findDescTag "PubDate".data article with
  | none => "Unknown Date".data
  | some pub_date =>
    let year_str := textOr (findChildTag "Year".data pub_date) "XXXX".data
    let month_str := textOr (findChildTag "Month".data pub_date) "XX".data
    let day_str := textOr (findChildTag "Day".data pub_date) "XX".data
    formatDate year_str (convertMonth month_str) day_str

/-- Catch of an exception in the `Except` model of Python evaluation. -/
def pyTry {α : Type} (x : Except Unit α) (h : Unit → Except Unit α) :
    Except Unit α :=
  match x with
  | Except.ok a => Except.ok a
  | Except.error e => h e

/-- PubMedParser.extract_publication_date in the exception-explicit model:
the only operation of the whole parser that can raise is the strptime call,
and lines 53-58 wrap it in `try`/`except`. -/
def extract_publication_dateE (article : Element) : Except Unit Str :=
  match findDescTag "PubDate".data article with
  | none => Except.ok "Unknown Date".data
  | some pub_date =>
    let year_str := textOr (findChildTag "Year".data pub_date) "XXXX".data
    let month_str := textOr (findChildTag "Month".data pub_date) "XX".data
    let day_str := textOr (findChildTag "Day".data pub_date) "XX".data
    match pyTry (convertMonthE month_str) (fun _ => Except.ok "XX".data) with
    | Except.ok m => Except.ok (formatDate year_str m day_str)
    | Except.error e => Except.error e

/-- The body of the author loop of parser.py lines 87-111: display name
(ForeName LastName, else Initials LastName, else LastName; skip the author
without a truthy LastName), first nested affiliation text (empty when
absent), and the optional email extracted from the affiliation. -/
def authorEntry (author : Element) : Option (Str × Str × Option Str) :=
  match truthyText (findChildTag "LastName".data author) with
  | some ln =>
    let name :=
      match truthyText (findChildTag "ForeName".data author) with
      | some fn => fn ++ [ ' ' ] ++ ln
      | none =>
        match truthyText (findChildTag "Initials".data author) with
        | some ini => ini ++ [ ' ' ] ++ ln
        | none => ln
    let affiliation :=
      textOr (findPath "AffiliationInfo".data "Affiliation".data author) []
    let email :=
      if affiliation.isEmpty then none else extract_email affiliation
    some (name, affiliation, email)
  | none => none

/-- PubMedParser.extract_author_affiliations (parser.py lines 70-113):
author-name display logic, first nested affiliation text, optional email.
Authors without a truthy LastName are skipped (`filterMap`). -/
def extract_author_affiliations (article : Element) :
    List (Str × Str × Option Str) :=
  match findDescTag "AuthorList".data article with
  | none => []
  | some author_list =>
    (childrenWithTag "Author".data author_list).filterMap authorEntry

/-- The truthy-text-then-extract step of both email loops of parser.py lines
126-141: `if affiliation.text: email = extract_email(affiliation.text)`. -/
def emailOfAffiliation (aff : Element) : Option Str :=
  match aff.text with
  | some t => if t.isEmpty then none else extract_email t
  | none => none

/-- The authors flagged `ValidYN="Y"` and `CorrespondingAuthor="Y"` among all
Author descendants, in document order (parser.py lines 127-128). -/
def flaggedAuthors (article : Element) : List Element :=
  (descendantsWithTag "Author".data article).filter (fun author =>
    author.getAttr "ValidYN".data == some "Y".data &&
    author.getAttr "CorrespondingAuthor".data == some "Y".data)

/-- The candidate emails of the first loop of
extract_corresponding_author_email: for each flagged author, the extractable
emails of its AffiliationInfo/Affiliation texts, in document order. -/
def flaggedCandidateEmails (article : Element) : List Str :=
  ((flaggedAuthors article).flatMap
    (findallPath "AffiliationInfo".data "Affiliation".data)).filterMap
    emailOfAffiliation

/-- The candidate emails of the second loop of
extract_corresponding_author_email: the extractable emails of every
AffiliationInfo/Affiliation text of the document, in document order. -/
def allCandidateEmails (article : Element) : List Str :=
  (findallDescPath "AffiliationInfo".data "Affiliation".data article).filterMap
    emailOfAffiliation

/-- PubMedParser.extract_corresponding_author_email (parser.py lines
115-143): first email of a flagged corresponding author, else first email of
any affiliation of the document, else nothing. -/
def extract_corresponding_author_email (article : Element) : Option Str :=
  match (flaggedAuthors article).findSome? (fun author =>
      (findallPath "AffiliationInfo".data "Affiliation".data author).findSome?
        emailOfAffiliation) with
  | some email => some email
  | none =>
    (findallDescPath "AffiliationInfo".data "Affiliation".data
      article).findSome? emailOfAffiliation

/-- The record assembled by parse_article: the six output fields. -/
structure ArticleRecord where
  pubmedID : Str
  title : Str
  publicationDate : Str
  nonAcademicAuthors : Str
  companyAffiliations : Str
  correspondingAuthorEmail : Str
deriving DecidableEq, Repr

/-- One step of the loop of parser.py lines 165-172: an author whose truthy
affiliation classifies as a company contributes its name to the non-academic
list and (when truthy) its extracted company name to the company set.  The
Python `set` is modelled as a first-insertion-ordered duplicate-free list. -/
def collectStep (acc : List Str × List Str) (entry : Str × Str × Option Str) :
    List Str × List Str :=
  let name := entry.1
  let affiliation := entry.2.1
  if !affiliation.isEmpty && is_company_affiliation affiliation then
    let nonAcad := acc.1 ++ [ name ]
    let comp :=
      match extract_company_name affiliation with
      | some company_name =>
        if company_name.isEmpty then acc.2
        else if acc.2.contains company_name then acc.2
        else acc.2 ++ [ company_name ]
      | none => acc.2
    (nonAcad, comp)
  else acc

/-- Python `"; ".join(l)`: the separator between consecutive items. -/
def joinSemi : List Str → Str
  | [] => []
  | [ s ] => s
  | s :: rest => s ++ "; ".data ++ joinSemi rest

/-- PubMedParser.parse_article (parser.py lines 145-183). -/
def parse_article (pmid : Str) (article : Element) : ArticleRecord :=
  let title := extract_title article
  let publication_date := extract_publication_date article
  let author_affiliations := extract_author_affiliations article
  let pair := author_affiliations.foldl collectStep ([], [])
  let corresponding_author_email :=
    match extract_corresponding_author_email article with
    | some e => if e.isEmpty then "Email Not Found".data else e
    | none => "Email Not Found".data
  { pubmedID := if pmid.isEmpty then "PubMed ID Not Found".data else pmid
    title := title
    publicationDate := publication_date
    nonAcademicAuthors :=
      if pair.1.isEmpty then "No Non-Academic Authors".data else joinSemi pair.1
    companyAffiliations :=
      if pair.2.isEmpty then "No Company Affiliations".data else joinSemi pair.2
    correspondingAuthorEmail := corresponding_author_email }

/-- PubMedParser.parse_article in the exception-explicit model: the
publication-date extraction is the only step whose evaluation passes through
a `try`/`except`. -/
def parse_articleE (pmid : Str) (article : Element) :
    Except Unit ArticleRecord := do
  let title := extract_title article
  let publication_date ← extract_publication_dateE article
  let author_affiliations := extract_author_affiliations article
  let pair := author_affiliations.foldl collectStep ([], [])
  let corresponding_author_email :=
    match extract_corresponding_author_email article with
    | some e => if e.isEmpty then "Email Not Found".data else e
    | none => "Email Not Found".data
  pure
    { pubmedID := if pmid.isEmpty then "PubMed ID Not Found".data else pmid
      title := title
      publicationDate := publication_date
      nonAcademicAuthors :=
        if pair.1.isEmpty then "No Non-Academic Authors".data
        else joinSemi pair.1
      companyAffiliations :=
        if pair.2.isEmpty then "No Company Affiliations".data
        else joinSemi pair.2
      correspondingAuthorEmail := corresponding_author_email }

/-- Every company keyword is a non-empty string. -/
lemma company_keywords_ne_nil : ∀ kw ∈ COMPANY_KEYWORDS, kw ≠ [] := by decide

/-- A string containing some company keyword as a substring is non-empty. -/
lemma ne_nil_of_company_kw {s : Str}
    (h : ∃ kw ∈ COMPANY_KEYWORDS, kw <:+: pyLower s) : s ≠ [] := by
  rcases h with ⟨kw, hkw, hinf⟩
  intro hs
  subst hs
  have : kw = [] := List.eq_nil_of_infix_nil hinf
  exact company_keywords_ne_nil kw hkw this

/-- In the presence of a company keyword, the outer keyword loop of
is_company_affiliation finds one. -/
lemma company_find?_isSome {s : Str}
    (h : ∃ kw ∈ COMPANY_KEYWORDS, kw <:+: pyLower s) :
    (COMPANY_KEYWORDS.find? (fun kw => inStr kw (pyLower s))).isSome := by
  rcases h with ⟨kw, hkw, hinf⟩
  exact List.find?_isSome.2 ⟨kw, hkw, by simpa [inStr] using hinf⟩

/-- When no academic keyword occurs as a substring, the inner keyword loop of
is_company_affiliation finds none. -/
lemma academic_find?_eq_none {s : Str}
    (h : ∀ kw ∈ ACADEMIC_KEYWORDS, ¬ (kw <:+: pyLower s)) :
    ACADEMIC_KEYWORDS.find? (fun kw => inStr kw (pyLower s)) = none := by
  exact List.find?_eq_none.2 (fun kw hkw => by simpa [inStr] using h kw hkw)

/-- Shared core of claims C5 and C10: a company keyword with no academic
keyword classifies as a company. -/
lemma is_company_of_kw_no_academic {aff : Str}
    (hc : ∃ kw ∈ COMPANY_KEYWORDS, kw <:+: pyLower aff)
    (ha : ∀ kw ∈ ACADEMIC_KEYWORDS, ¬ (kw <:+: pyLower aff)) :
    is_company_affiliation aff = true := by
  have hne : aff ≠ [] := ne_nil_of_company_kw hc
  have hfc := company_find?_isSome hc
  rcases Option.isSome_iff_exists.1 hfc with ⟨kw, hkw⟩
  have hfa := academic_find?_eq_none ha
  simp only [is_company_affiliation, List.isEmpty_iff, hne, if_false, hkw, hfa]

/-- Claim C1: for every affiliation string containing (case-insensitively)
both a company keyword and an academic keyword, is_company_affiliation
returns true exactly when the anchored named-entity-plus-legal-suffix pattern
matches, or the lower-cased text ends with a corporate-suffix word modulo
trailing whitespace (the patterns of affiliations.py lines 50 and 54);
otherwise it returns false. -/
theorem claim_C1 (aff : Str)
    (hc : ∃ kw ∈ COMPANY_KEYWORDS, kw <:+: pyLower aff)
    (ha : ∃ kw ∈ ACADEMIC_KEYWORDS, kw <:+: pyLower aff) :
    is_company_affiliation aff = (matchP1 aff || matchP2 (pyLower aff)) := by
  have hne : aff ≠ [] := ne_nil_of_company_kw hc
  have hfc := company_find?_isSome hc
  rcases Option.isSome_iff_exists.1 hfc with ⟨kw, hkw⟩
  rcases ha with ⟨akw, hakw, hainf⟩
  have hfa : (ACADEMIC_KEYWORDS.find? (fun kw => inStr kw (pyLower aff))).isSome :=
    List.find?_isSome.2 ⟨akw, hakw, by simpa [inStr] using hainf⟩
  rcases Option.isSome_iff_exists.1 hfa with ⟨akw2, hakw2⟩
  simp only [is_company_affiliation, List.isEmpty_iff, hne, if_false, hkw, hakw2]
  cases matchP1 aff <;> cases matchP2 (pyLower aff) <;> simp

/-- Witness for claim C1 at a concrete affiliation containing both the
company keyword "inc" and the academic keyword "university". -/
theorem claim_C1_witness :
    is_company_affiliation "Pfizer Inc, University Lane".data =
      (matchP1 "Pfizer Inc, University Lane".data ||
        matchP2 (pyLower "Pfizer Inc, University Lane".data)) :=
  claim_C1 "Pfizer Inc, University Lane".data (by decide) (by decide)

/-- Claim C5: an affiliation containing a legal-entity suffix and no academic
keyword classifies as a company, and the empty string does not. -/
theorem claim_C5 :
    (∀ aff : Str, (∃ suf ∈ legalSuffixes, suf <:+: aff) →
      (∀ kw ∈ ACADEMIC_KEYWORDS, ¬ (kw <:+: pyLower aff)) →
      is_company_affiliation aff = true)
    ∧ is_company_affiliation [] = false := by
  constructor
  · intro aff hsuf ha
    rcases hsuf with ⟨suf, hsuf, hinf⟩
    apply is_company_of_kw_no_academic _ ha
    refine ⟨pyLower suf, ?_, ?_⟩
    · revert hsuf
      have : ∀ s ∈ legalSuffixes, pyLower s ∈ COMPANY_KEYWORDS := by decide
      exact this suf
    · exact List.IsInfix.map Char.toLower hinf
  · rfl

/-- Witness for claim C5 at the concrete affiliation "Acme GmbH". -/
theorem claim_C5_witness :
    is_company_affiliation "Acme GmbH".data = true ∧
      is_company_affiliation [] = false :=
  ⟨claim_C5.1 "Acme GmbH".data (by decide) (by decide), claim_C5.2⟩

/-- Claim C10: keyword detection is plain substring containment on the
lower-cased text, not whole-word matching: any string whose lower-casing
contains a company keyword as a substring and no academic keyword as a
substring classifies as a company. -/
theorem claim_C10 (aff : Str)
    (hc : ∃ kw ∈ COMPANY_KEYWORDS, kw <:+: pyLower aff)
    (ha : ∀ kw ∈ ACADEMIC_KEYWORDS, ¬ (kw <:+: pyLower aff)) :
    is_company_affiliation aff = true :=
  is_company_of_kw_no_academic hc ha

/-- Witness for claim C10: "zzco" contains the company keyword "co" only as a
fragment of a longer word, yet classifies as a company. -/
theorem claim_C10_witness : is_company_affiliation "zzco".data = true :=
  claim_C10 "zzco".data (by decide) (by decide)

/-- Claim C6: extract_company_name first returns the trimmed span of the
capitalized-run-plus-legal-suffix pattern when it matches; failing that it
returns the trimmed segment before the first comma when the affiliation
classifies as a company; otherwise nothing. -/
theorem claim_C6 (aff : Str) :
    (∀ m, searchCompany aff = some m →
      extract_company_name aff = some (pyStrip m))
    ∧ (searchCompany aff = none → is_company_affiliation aff = true →
        extract_company_name aff = some (pyStrip (splitCommaHead aff)))
    ∧ (searchCompany aff = none → is_company_affiliation aff = false →
        extract_company_name aff = none) := by
  refine ⟨?_, ?_, ?_⟩
  · intro m hm
    have hne : aff ≠ [] := by
      intro h
      subst h
      simp [searchCompany] at hm
    simp only [extract_company_name, List.isEmpty_iff, hne, if_false, hm]
  · intro hs hc
    have hne : aff ≠ [] := by
      intro h
      subst h
      simp [is_company_affiliation] at hc
    simp only [extract_company_name, List.isEmpty_iff, hne, if_false, hs, hc,
      if_true]
  · intro hs hc
    by_cases hne : aff = []
    · subst hne
      rfl
    · simp only [extract_company_name, List.isEmpty_iff, hne, if_false, hs, hc]
      simp

/-- Witness for claim C6: each branch at a concrete affiliation. -/
theorem claim_C6_witness :
    extract_company_name "Moderna Inc., Cambridge".data =
      some "Moderna Inc.".data
    ∧ extract_company_name "Acme pharma, Boston".data =
        some "Acme pharma".data
    ∧ extract_company_name "University of X".data = none :=
  ⟨(claim_C6 "Moderna Inc., Cambridge".data).1 "Moderna Inc.".data (by decide),
   (claim_C6 "Acme pharma, Boston".data).2.1 (by decide) (by decide),
   (claim_C6 "University of X".data).2.2 (by decide) (by decide)⟩

/-- The first-success scan of a Python loop over extraction attempts equals
the head of the list of all successful extractions. -/
lemma findSome?_eq_head_filterMap {α β : Type} (f : α → Option β)
    (l : List α) : l.findSome? f = (l.filterMap f).head? :=
  (List.filterMap_head? f l).symm

/-- A nested first-success scan flattens to a scan of the flattened list. -/
lemma findSome?_flatMap {α β γ : Type} (g : α → List γ) (f : γ → Option β) :
    ∀ l : List α,
      (l.flatMap g).findSome? f = l.findSome? (fun a => (g a).findSome? f)
  | [] => rfl
  | a :: l => by
    rw [List.flatMap_cons, List.findSome?_append, List.findSome?_cons]
    cases h : (g a).findSome? f with
    | some b => simp [h]
    | none => simp [h, findSome?_flatMap g f l]

/-- Claim C4: extract_corresponding_author_email returns the first
extractable email of a flagged (valid and corresponding) author's
affiliations, else the first extractable email of any affiliation of the
document in document order, else nothing: that is, the head of the
prioritized candidate list. -/
theorem claim_C4 (article : Element) :
    extract_corresponding_author_email article =
      (flaggedCandidateEmails article ++ allCandidateEmails article).head? := by
  rw [extract_corresponding_author_email, flaggedCandidateEmails,
    allCandidateEmails, List.head?_append]
  rw [← findSome?_eq_head_filterMap, ← findSome?_eq_head_filterMap,
    findSome?_flatMap]
  cases h : (flaggedAuthors article).findSome? (fun author =>
      (findallPath "AffiliationInfo".data "Affiliation".data
        author).findSome? emailOfAffiliation) with
  | some e => simp [h, Option.or]
  | none => simp [h, Option.or]

/-- A concrete document with one flagged corresponding author whose
affiliation text embeds an email. -/
def sampleFlaggedDoc : Element :=
  Element.mk "PubmedArticle".data [] none
    [ Element.mk "AuthorList".data [] none
      [ Element.mk "Author".data
          [ ( "ValidYN".data, "Y".data ),
            ( "CorrespondingAuthor".data, "Y".data ) ] none
          [ Element.mk "LastName".data [] (some "Doe".data) [],
            Element.mk "AffiliationInfo".data [] none
            [ Element.mk "Affiliation".data []
                (some "Uni. j@uni.edu".data) [] ] ] ] ]

/-- Witness exercising claim C4 on a concrete flagged-author document. -/
theorem claim_C4_witness :
    extract_corresponding_author_email sampleFlaggedDoc =
      (flaggedCandidateEmails sampleFlaggedDoc ++
        allCandidateEmails sampleFlaggedDoc).head? :=
  claim_C4 sampleFlaggedDoc

/-- Membership in one set-building step of get_company_affiliations. -/
lemma mem_addCompany {s : Finset Str} {aff x : Str} :
    x ∈ addCompany s aff ↔
      x ∈ s ∨ (is_company_affiliation aff = true ∧
        extract_company_name aff = some x ∧ x ≠ []) := by
  constructor
  · intro hx
    unfold addCompany at hx
    by_cases hc : is_company_affiliation aff = true
    · rw [if_pos hc] at hx
      cases he : extract_company_name aff with
      | none =>
        rw [he] at hx
        exact Or.inl hx
      | some name =>
        rw [he] at hx
        dsimp only at hx
        cases hn : name.isEmpty with
        | true =>
          rw [hn] at hx
          simp only [if_true] at hx
          exact Or.inl hx
        | false =>
          rw [hn] at hx
          simp only [Bool.false_eq_true, if_false] at hx
          rcases Finset.mem_insert.1 hx with rfl | hx'
          · refine Or.inr ⟨hc, rfl, ?_⟩
            intro h
            rw [h] at hn
            simp at hn
          · exact Or.inl hx'
    · rw [if_neg hc] at hx
      exact Or.inl hx
  · intro hx
    unfold addCompany
    rcases hx with hx | ⟨hc, he, hname⟩
    · by_cases hc : is_company_affiliation aff = true
      · rw [if_pos hc]
        cases he : extract_company_name aff with
        | none => exact hx
        | some name =>
          cases hn : name.isEmpty with
          | true => simp [hn, hx]
          | false =>
            simp only [hn, Bool.false_eq_true, if_false]
            exact Finset.mem_insert_of_mem hx
      · rw [if_neg hc]
        exact hx
    · rw [if_pos hc, he]
      have hn : x.isEmpty = false := by
        cases h : x.isEmpty with
        | true => exact absurd (List.isEmpty_iff.1 h) hname
        | false => rfl
      simp only [hn, Bool.false_eq_true, if_false]
      exact Finset.mem_insert_self x s

/-- Membership in the fold of get_company_affiliations over any seed set. -/
lemma mem_foldl_addCompany (l : List Str) :
    ∀ (s : Finset Str) (x : Str),
      x ∈ l.foldl addCompany s ↔
        x ∈ s ∨ ∃ aff ∈ l, is_company_affiliation aff = true ∧
          extract_company_name aff = some x ∧ x ≠ [] := by
  induction l with
  | nil => simp
  | cons a l ih =>
    intro s x
    rw [List.foldl_cons, ih, mem_addCompany]
    constructor
    · rintro ((hx | hcontrib) | ⟨aff, haff, h⟩)
      · exact Or.inl hx
      · exact Or.inr ⟨a, List.mem_cons_self a l, hcontrib⟩
      · exact Or.inr ⟨aff, List.mem_cons_of_mem a haff, h⟩
    · rintro (hx | ⟨aff, haff, h⟩)
      · exact Or.inl (Or.inl hx)
      · rcases List.mem_cons.1 haff with rfl | haff'
        · exact Or.inl (Or.inr h)
        · exact Or.inr ⟨aff, haff', h⟩

/-- Claim C7: get_company_affiliations is order-insensitive, and its members
are exactly the non-empty extracted company names of the inputs classified as
companies, duplicates collapsing by string equality. -/
theorem claim_C7 (l₁ l₂ : List Str) (h : l₁.Perm l₂) :
    get_company_affiliations l₁ = get_company_affiliations l₂
    ∧ ∀ x, x ∈ get_company_affiliations l₁ ↔
        ∃ aff ∈ l₁, is_company_affiliation aff = true ∧
          extract_company_name aff = some x ∧ x ≠ [] := by
  have hmem : ∀ (l : List Str) (x : Str),
      x ∈ get_company_affiliations l ↔
        ∃ aff ∈ l, is_company_affiliation aff = true ∧
          extract_company_name aff = some x ∧ x ≠ [] := by
    intro l x
    rw [get_company_affiliations, mem_foldl_addCompany]
    simp
  constructor
  · apply Finset.ext
    intro x
    rw [hmem l₁ x, hmem l₂ x]
    constructor
    · rintro ⟨aff, haff, hp⟩
      exact ⟨aff, h.mem_iff.1 haff, hp⟩
    · rintro ⟨aff, haff, hp⟩
      exact ⟨aff, h.mem_iff.2 haff, hp⟩
  · exact hmem l₁

/-- Witness for claim C7: swapping two concrete affiliations leaves the
resulting set unchanged. -/
theorem claim_C7_witness :
    get_company_affiliations
        [ "Acme pharma, Boston".data, "Moderna Inc., Cambridge".data ] =
      get_company_affiliations
        [ "Moderna Inc., Cambridge".data, "Acme pharma, Boston".data ] :=
  (claim_C7 _ _
    (List.Perm.swap "Moderna Inc., Cambridge".data
      "Acme pharma, Boston".data [])).1

/-- A concrete document whose PubDate carries Year 2023, Month "Jan", Day 15. -/
def sampleDateFull : Element :=
  Element.mk "PubmedArticle".data [] none
    [ Element.mk "PubDate".data [] none
      [ Element.mk "Year".data [] (some "2023".data) [],
        Element.mk "Month".data [] (some "Jan".data) [],
        Element.mk "Day".data [] (some "15".data) [] ] ]

/-- A concrete document whose PubDate carries only Year 2023. -/
def sampleDateYearOnly : Element :=
  Element.mk "PubmedArticle".data [] none
    [ Element.mk "PubDate".data [] none
      [ Element.mk "Year".data [] (some "2023".data) [] ] ]

/-- A concrete document with no PubDate node at all. -/
def sampleDateNone : Element :=
  Element.mk "PubmedArticle".data [] none []

/-- Claim C3: extract_publication_date converts an alphabetic month name to a
two-digit numeric month (unknown on conversion failure) and then formats by
presence: no year yields "Unknown Date", year-month-day yields "YYYY-MM-DD",
year-month yields "YYYY-MM", year alone yields "YYYY"; in particular
Year=2023/Month="Jan"/Day=15 yields "2023-01-15", Year=2023 alone yields
"2023", and an absent date yields "Unknown Date".  Presence is stated after
the source's placeholder substitution: a missing or empty Year reads as
"XXXX" and a missing, empty or unconvertible Month or Day reads as "XX". -/
theorem claim_C3 :
    (∀ article, findDescTag "PubDate".data article = none →
      extract_publication_date article = "Unknown Date".data)
    ∧ (∀ article pd ys ms ds,
        findDescTag "PubDate".data article = some pd →
        ys = textOr (findChildTag "Year".data pd) "XXXX".data →
        ms = convertMonth (textOr (findChildTag "Month".data pd) "XX".data) →
        ds = textOr (findChildTag "Day".data pd) "XX".data →
        (ys = "XXXX".data →
          extract_publication_date article = "Unknown Date".data)
        ∧ (ys ≠ "XXXX".data → ms ≠ "XX".data → ds ≠ "XX".data →
            extract_publication_date article =
              ys ++ [ '-' ] ++ ms ++ [ '-' ] ++ ds)
        ∧ (ys ≠ "XXXX".data → ms ≠ "XX".data → ds = "XX".data →
            extract_publication_date article = ys ++ [ '-' ] ++ ms)
        ∧ (ys ≠ "XXXX".data → ms = "XX".data →
            extract_publication_date article = ys))
    ∧ (∀ s m, pyIsAlpha s = true →
        strptimeBmonth (s.take 3) = Except.ok m →
        convertMonth s = zfill2 (Nat.repr m).data)
    ∧ (∀ s, pyIsAlpha s = true →
        strptimeBmonth (s.take 3) = Except.error () →
        convertMonth s = "XX".data)
    ∧ convertMonth "Jan".data = "01".data
    ∧ extract_publication_date sampleDateFull = "2023-01-15".data
    ∧ extract_publication_date sampleDateYearOnly = "2023".data
    ∧ extract_publication_date sampleDateNone = "Unknown Date".data := by
  refine ⟨?_, ?_, ?_, ?_, by decide, by decide, by decide, by decide⟩
  · intro article h
    rw [extract_publication_date, h]
  · intro article pd ys ms ds hpd hys hms hds
    have hdate : extract_publication_date article = formatDate ys ms ds := by
      rw [extract_publication_date, hpd, hys, hms, hds]
    refine ⟨?_, ?_, ?_, ?_⟩
    · intro h1
      rw [hdate, formatDate, if_neg (by simp [h1])]
    · intro h1 h2 h3
      rw [hdate, formatDate, if_pos h1, if_pos ⟨h2, h3⟩]
    · intro h1 h2 h3
      rw [hdate, formatDate, if_pos h1, if_neg (by simp [h3]), if_pos h2]
    · intro h1 h2
      rw [hdate, formatDate, if_pos h1, if_neg (by simp [h2]), if_neg (by simp [h2])]
  · intro s m ha hok
    rw [convertMonth, convertMonthE, if_pos ha, hok]
  · intro s ha herr
    rw [convertMonth, convertMonthE, if_pos ha, herr]

/-- Witness for claim C3: the format cases applied at the concrete sample
documents. -/
theorem claim_C3_witness :
    extract_publication_date sampleDateNone = "Unknown Date".data
    ∧ extract_publication_date sampleDateFull = "2023-01-15".data
    ∧ extract_publication_date sampleDateYearOnly = "2023".data
    ∧ convertMonth "Foo".data = "XX".data := by
  refine ⟨claim_C3.1 sampleDateNone rfl, ?_, ?_,
    claim_C3.2.2.2.1 "Foo".data (by decide) rfl⟩
  · exact (claim_C3.2.1 sampleDateFull _ _ _ _ rfl rfl rfl rfl).2.1
      (by decide) (by decide) (by decide)
  · exact (claim_C3.2.1 sampleDateYearOnly _ _ _ _ rfl rfl rfl rfl).2.2.2
      (by decide) (by decide)

/-- The publication-date extractor never lets the strptime exception escape:
in the exception-explicit model it succeeds on every document, returning the
value of the total extractor. -/
lemma extract_publication_dateE_ok (article : Element) :
    extract_publication_dateE article =
      Except.ok (extract_publication_date article) := by
  rw [extract_publication_dateE, extract_publication_date]
  cases findDescTag "PubDate".data article with
  | none => rfl
  | some pub_date =>
    dsimp only
    cases h : convertMonthE (textOr (findChildTag "Month".data pub_date) "XX".data) with
    | ok s => simp [pyTry, convertMonth, h]
    | error e => simp [pyTry, convertMonth, h]

/-- Claim C2: parse_article terminates normally on every identifier and every
document: in the model where the strptime call of the date extractor is the
(only) raising operation, parse_articleE always returns `ok`, and its value
is the record of the total function; every extractor it calls is a total
function substituting sentinels for missing fields. -/
theorem claim_C2 (pmid : Str) (article : Element) :
    parse_articleE pmid article = Except.ok (parse_article pmid article) := by
  rw [parse_articleE, parse_article]
  rw [extract_publication_dateE_ok]
  rfl

/-- Witness exercising claim C2 at a concrete identifier and document. -/
theorem claim_C2_witness :
    parse_articleE "17".data sampleFlaggedDoc =
      Except.ok (parse_article "17".data sampleFlaggedDoc) :=
  claim_C2 "17".data sampleFlaggedDoc

/-- The head of a list is a member. -/
lemma mem_of_head?_eq_some {α : Type} {l : List α} {a : α}
    (h : l.head? = some a) : a ∈ l := by
  cases l with
  | nil => simp at h
  | cons b t =>
    simp only [List.head?_cons, Option.some.injEq] at h
    exact h ▸ List.mem_cons_self b t

/-- Membership in the document-order listing of a forest. -/
lemma mem_descList {es : List Element} {x : Element} :
    x ∈ descList es ↔ ∃ c ∈ es, x = c ∨ x ∈ c.descendants := by
  induction es with
  | nil => simp [descList]
  | cons e es ih =>
    rw [descList]
    simp only [List.mem_cons, List.mem_append, ih]
    aesop

/-- A child is a descendant. -/
lemma children_mem_descendants {e c : Element} (h : c ∈ e.children) :
    c ∈ e.descendants := by
  cases e with
  | mk t a tx cs =>
    rw [Element.children] at h
    rw [Element.descendants]
    exact mem_descList.2 ⟨c, h, Or.inl rfl⟩

mutual

/-- Descendants of a descendant are descendants. -/
theorem descendants_trans : ∀ (e x y : Element),
    x ∈ e.descendants → y ∈ x.descendants → y ∈ e.descendants
  | .mk _ _ _ cs, x, y, hx, hy => by
    rw [Element.descendants] at hx ⊢
    exact descList_trans cs x y hx hy

/-- Descendants of a member of a forest listing are in the listing. -/
theorem descList_trans : ∀ (es : List Element) (x y : Element),
    x ∈ descList es → y ∈ x.descendants → y ∈ descList es
  | [], x, y, hx, _ => by
    rw [descList] at hx
    exact absurd hx (List.not_mem_nil x)
  | c :: es, x, y, hx, hy => by
    rw [descList] at hx ⊢
    rcases List.mem_cons.1 hx with hxc | hx'
    · rw [hxc] at hy
      exact List.mem_cons_of_mem c (List.mem_append.2 (Or.inl hy))
    · rcases List.mem_append.1 hx' with hx2 | hx3
      · have hyc := descendants_trans c x y hx2 hy
        exact List.mem_cons_of_mem c (List.mem_append.2 (Or.inl hyc))
      · have hys := descList_trans es x y hx3 hy
        exact List.mem_cons_of_mem c (List.mem_append.2 (Or.inr hys))

end

/-- A document with no Author descendant yields no author entries. -/
lemma extract_author_affiliations_eq_nil (article : Element)
    (h : descendantsWithTag "Author".data article = []) :
    extract_author_affiliations article = [] := by
  rw [extract_author_affiliations]
  cases hal : findDescTag "AuthorList".data article with
  | none => rfl
  | some al =>
    rw [findDescTag] at hal
    have hmemfilter : al ∈ descendantsWithTag "AuthorList".data article :=
      mem_of_head?_eq_some hal
    rw [descendantsWithTag] at hmemfilter
    have hmem : al ∈ article.descendants := (List.mem_filter.1 hmemfilter).1
    have hchild : childrenWithTag "Author".data al = [] := by
      rw [childrenWithTag]
      refine List.filter_eq_nil_iff.2 (fun c hc hctag => ?_)
      have hcdesc : c ∈ article.descendants :=
        descendants_trans article al c hmem (children_mem_descendants hc)
      have hcmem : c ∈ descendantsWithTag "Author".data article :=
        List.mem_filter.2 ⟨hcdesc, hctag⟩
      rw [h] at hcmem
      simp at hcmem
    dsimp only
    rw [hchild]
    rfl

/-- With no Author descendant and no extractable affiliation email, the email
extractor returns nothing. -/
lemma extract_cae_eq_none (article : Element)
    (h : descendantsWithTag "Author".data article = [])
    (h2 : allCandidateEmails article = []) :
    extract_corresponding_author_email article = none := by
  rw [extract_corresponding_author_email, flaggedAuthors, h]
  simp only [List.filter_nil, List.findSome?_nil]
  rw [allCandidateEmails] at h2
  rw [← List.filterMap_head?, h2]
  rfl

/-- A concrete document with zero Author nodes but a stray affiliation node
whose text embeds an email address. -/
def strayAffiliationDoc : Element :=
  Element.mk "PubmedArticle".data [] none
    [ Element.mk "AffiliationInfo".data [] none
      [ Element.mk "Affiliation".data [] (some "a@b.co".data) [] ] ]

/-- Counterexample to claim C8 as stated: this document contains zero author
nodes, yet parse_article fills the corresponding-author-email field with the
email found by the whole-document affiliation scan, not with the sentinel
"Email Not Found". -/
theorem claim_C8_counterexample :
    (descendantsWithTag "Author".data strayAffiliationDoc).length = 0
    ∧ (parse_article "1".data strayAffiliationDoc).correspondingAuthorEmail =
        "a@b.co".data
    ∧ (parse_article "1".data strayAffiliationDoc).correspondingAuthorEmail ≠
        "Email Not Found".data := by
  refine ⟨by decide, by decide, by decide⟩

/-- Claim C8 as amended: with zero author nodes the non-academic-authors and
company-affiliations fields are their sentinels unconditionally, and the
email field is "Email Not Found" provided additionally that no affiliation
text anywhere in the document contains an extractable email. -/
theorem claim_C8_amended (pmid : Str) (article : Element)
    (h : descendantsWithTag "Author".data article = []) :
    (parse_article pmid article).nonAcademicAuthors =
      "No Non-Academic Authors".data
    ∧ (parse_article pmid article).companyAffiliations =
        "No Company Affiliations".data
    ∧ (allCandidateEmails article = [] →
        (parse_article pmid article).correspondingAuthorEmail =
          "Email Not Found".data) := by
  have hextr := extract_author_affiliations_eq_nil article h
  refine ⟨?_, ?_, ?_⟩
  · rw [parse_article, hextr]
    rfl
  · rw [parse_article, hextr]
    rfl
  · intro h2
    rw [parse_article, extract_cae_eq_none article h h2]

/-- Witness for the amended claim C8 at a concrete authorless document. -/
theorem claim_C8_witness :
    (parse_article "7".data sampleDateNone).nonAcademicAuthors =
      "No Non-Academic Authors".data
    ∧ (parse_article "7".data sampleDateNone).companyAffiliations =
        "No Company Affiliations".data
    ∧ (parse_article "7".data sampleDateNone).correspondingAuthorEmail =
        "Email Not Found".data := by
  have h := claim_C8_amended "7".data sampleDateNone rfl
  exact ⟨h.1, h.2.1, h.2.2 rfl⟩

/-- textOr yields a non-empty string whenever its default is non-empty. -/
lemma textOr_ne_nil {e? : Option Element} {d : Str} (hd : d ≠ []) :
    textOr e? d ≠ [] := by
  unfold textOr
  cases e? with
  | none => exact hd
  | some e =>
    dsimp only
    cases htext : e.text with
    | none => exact hd
    | some s =>
      dsimp only
      by_cases hs : s.isEmpty = true
      · rw [if_pos hs]
        exact hd
      · rw [if_neg hs]
        intro h
        rw [h] at hs
        exact hs rfl

/-- A truthy text is non-empty. -/
lemma truthyText_ne_nil {e? : Option Element} {s : Str}
    (h : truthyText e? = some s) : s ≠ [] := by
  unfold truthyText at h
  cases e? with
  | none => simp at h
  | some e =>
    dsimp only at h
    cases htext : e.text with
    | none =>
      rw [htext] at h
      simp at h
    | some t =>
      rw [htext] at h
      dsimp only at h
      by_cases ht : t.isEmpty = true
      · rw [if_pos ht] at h
        simp at h
      · rw [if_neg ht] at h
        injection h with h'
        rw [← h']
        intro hnil
        rw [hnil] at ht
        exact ht rfl

/-- The extracted title is never the empty string. -/
lemma extract_title_ne_nil (article : Element) : extract_title article ≠ [] :=
  textOr_ne_nil (by decide)

/-- The formatted date is non-empty whenever the year string is. -/
lemma formatDate_ne_nil {ys ms ds : Str} (hy : ys ≠ []) :
    formatDate ys ms ds ≠ [] := by
  rw [formatDate]
  by_cases h1 : ys ≠ "XXXX".data
  · rw [if_pos h1]
    by_cases h2 : ms ≠ "XX".data ∧ ds ≠ "XX".data
    · rw [if_pos h2]
      simp [List.append_eq_nil]
    · rw [if_neg h2]
      by_cases h3 : ms ≠ "XX".data
      · rw [if_pos h3]
        simp [List.append_eq_nil]
      · rw [if_neg h3]
        exact hy
  · rw [if_neg h1]
    decide

/-- The extracted publication date is never the empty string. -/
lemma extract_publication_date_ne_nil (article : Element) :
    extract_publication_date article ≠ [] := by
  rw [extract_publication_date]
  cases findDescTag "PubDate".data article with
  | none => decide
  | some pub_date =>
    dsimp only
    exact formatDate_ne_nil (textOr_ne_nil (by decide))

/-- The display name of every author entry is non-empty. -/
lemma authorEntry_name_ne_nil {author : Element} {e : Str × Str × Option Str}
    (h : authorEntry author = some e) : e.1 ≠ [] := by
  rw [authorEntry] at h
  cases hln : truthyText (findChildTag "LastName".data author) with
  | none =>
    rw [hln] at h
    simp at h
  | some ln =>
    rw [hln] at h
    dsimp only at h
    have hln' := truthyText_ne_nil hln
    cases hfn : truthyText (findChildTag "ForeName".data author) with
    | some fn =>
      rw [hfn] at h
      injection h with h'
      rw [← h']
      simp [List.append_eq_nil]
    | none =>
      rw [hfn] at h
      cases hini : truthyText (findChildTag "Initials".data author) with
      | some ini =>
        rw [hini] at h
        injection h with h'
        rw [← h']
        simp [List.append_eq_nil]
      | none =>
        rw [hini] at h
        injection h with h'
        rw [← h']
        exact hln'

/-- Every entry produced by extract_author_affiliations has a non-empty
display name. -/
lemma extract_author_names_ne_nil (article : Element) :
    ∀ e ∈ extract_author_affiliations article, e.1 ≠ [] := by
  intro e he
  rw [extract_author_affiliations] at he
  cases hal : findDescTag "AuthorList".data article with
  | none =>
    rw [hal] at he
    simp at he
  | some al =>
    rw [hal] at he
    dsimp only at he
    rcases List.mem_filterMap.1 he with ⟨author, -, hfm⟩
    exact authorEntry_name_ne_nil hfm

/-- One collection step preserves non-emptiness of all collected names. -/
lemma collectStep_nonempty {acc : List Str × List Str}
    {e : Str × Str × Option Str}
    (h1 : ∀ n ∈ acc.1, n ≠ []) (h2 : ∀ c ∈ acc.2, c ≠ []) (he : e.1 ≠ []) :
    (∀ n ∈ (collectStep acc e).1, n ≠ []) ∧
      (∀ c ∈ (collectStep acc e).2, c ≠ []) := by
  rw [collectStep]
  by_cases hcond :
      (!e.2.1.isEmpty && is_company_affiliation e.2.1) = true
  · rw [if_pos hcond]
    constructor
    · intro n hn
      dsimp only at hn
      rcases List.mem_append.1 hn with h | h
      · exact h1 n h
      · rw [List.mem_singleton.1 h]
        exact he
    · intro c hc
      dsimp only at hc
      cases hcn : extract_company_name e.2.1 with
      | none =>
        rw [hcn] at hc
        exact h2 c hc
      | some cn =>
        rw [hcn] at hc
        dsimp only at hc
        by_cases hemp : cn.isEmpty = true
        · rw [if_pos hemp] at hc
          exact h2 c hc
        · rw [if_neg hemp] at hc
          by_cases hcont : acc.2.contains cn = true
          · rw [if_pos hcont] at hc
            exact h2 c hc
          · rw [if_neg hcont] at hc
            rcases List.mem_append.1 hc with h | h
            · exact h2 c h
            · rw [List.mem_singleton.1 h]
              intro hnil
              rw [hnil] at hemp
              exact hemp rfl
  · rw [if_neg hcond]
    exact ⟨h1, h2⟩

/-- The collection fold preserves non-emptiness of all collected names. -/
lemma collect_foldl_nonempty :
    ∀ (entries : List (Str × Str × Option Str)) (acc : List Str × List Str),
      (∀ n ∈ acc.1, n ≠ []) → (∀ c ∈ acc.2, c ≠ []) →
      (∀ e ∈ entries, e.1 ≠ []) →
      (∀ n ∈ (entries.foldl collectStep acc).1, n ≠ []) ∧
        (∀ c ∈ (entries.foldl collectStep acc).2, c ≠ []) := by
  intro entries
  induction entries with
  | nil =>
    intro acc h1 h2 _
    exact ⟨h1, h2⟩
  | cons e entries ih =>
    intro acc h1 h2 hent
    rw [List.foldl_cons]
    have hstep := collectStep_nonempty h1 h2 (hent e (List.mem_cons_self e entries))
    exact ih (collectStep acc e) hstep.1 hstep.2
      (fun x hx => hent x (List.mem_cons_of_mem e hx))

/-- A semicolon join of non-empty strings over a non-empty list is
non-empty. -/
lemma joinSemi_ne_nil : ∀ {l : List Str}, l ≠ [] → (∀ s ∈ l, s ≠ []) →
    joinSemi l ≠ []
  | [], h, _ => absurd rfl h
  | [ s ], _, hall => by
    have := hall s (List.mem_cons_self s [])
    simpa [joinSemi] using this
  | s :: t :: r, _, hall => by
    have hs := hall s (List.mem_cons_self s (t :: r))
    show s ++ "; ".data ++ joinSemi (t :: r) ≠ []
    intro h
    rcases List.append_eq_nil.1 h with ⟨h1, -⟩
    rcases List.append_eq_nil.1 h1 with ⟨h2, -⟩
    exact hs h2

/-- Claim C9: every one of the six fields of the record returned by
parse_article is a non-empty string (genuine text or its sentinel), and the
empty string never appears among the collected author names or company names
that get joined. -/
theorem claim_C9 (pmid : Str) (article : Element) :
    (parse_article pmid article).pubmedID ≠ []
    ∧ (parse_article pmid article).title ≠ []
    ∧ (parse_article pmid article).publicationDate ≠ []
    ∧ (parse_article pmid article).nonAcademicAuthors ≠ []
    ∧ (parse_article pmid article).companyAffiliations ≠ []
    ∧ (parse_article pmid article).correspondingAuthorEmail ≠ []
    ∧ (∀ n ∈ ((extract_author_affiliations article).foldl collectStep
        ([], [])).1, n ≠ [])
    ∧ (∀ c ∈ ((extract_author_affiliations article).foldl collectStep
        ([], [])).2, c ≠ []) := by
  have hinv := collect_foldl_nonempty (extract_author_affiliations article)
    ([], []) (by intro n hn; simp at hn) (by intro c hc; simp at hc)
    (extract_author_names_ne_nil article)
  have hpub : (parse_article pmid article).pubmedID =
      (if pmid.isEmpty then "PubMed ID Not Found".data else pmid) := rfl
  have htit : (parse_article pmid article).title = extract_title article := rfl
  have hdat : (parse_article pmid article).publicationDate =
      extract_publication_date article := rfl
  have hnon : (parse_article pmid article).nonAcademicAuthors =
      (if ((extract_author_affiliations article).foldl collectStep
          ([], [])).1.isEmpty
       then "No Non-Academic Authors".data
       else joinSemi ((extract_author_affiliations article).foldl collectStep
          ([], [])).1) := rfl
  have hcom : (parse_article pmid article).companyAffiliations =
      (if ((extract_author_affiliations article).foldl collectStep
          ([], [])).2.isEmpty
       then "No Company Affiliations".data
       else joinSemi ((extract_author_affiliations article).foldl collectStep
          ([], [])).2) := rfl
  have hmail : (parse_article pmid article).correspondingAuthorEmail =
      (match extract_corresponding_author_email article with
       | some e => if e.isEmpty then "Email Not Found".data else e
       | none => "Email Not Found".data) := rfl
  refine ⟨?_, ?_, ?_, ?_, ?_, ?_, hinv.1, hinv.2⟩
  · rw [hpub]
    by_cases h : pmid.isEmpty = true
    · rw [if_pos h]
      decide
    · rw [if_neg h]
      intro hnil
      rw [hnil] at h
      exact h rfl
  · rw [htit]
    exact extract_title_ne_nil article
  · rw [hdat]
    exact extract_publication_date_ne_nil article
  · rw [hnon]
    by_cases h : ((extract_author_affiliations article).foldl collectStep
        ([], [])).1.isEmpty = true
    · rw [if_pos h]
      decide
    · rw [if_neg h]
      refine joinSemi_ne_nil (fun hnil => ?_) hinv.1
      rw [hnil] at h
      exact h rfl
  · rw [hcom]
    by_cases h : ((extract_author_affiliations article).foldl collectStep
        ([], [])).2.isEmpty = true
    · rw [if_pos h]
      decide
    · rw [if_neg h]
      refine joinSemi_ne_nil (fun hnil => ?_) hinv.2
      rw [hnil] at h
      exact h rfl
  · rw [hmail]
    cases hx : extract_corresponding_author_email article with
    | none => decide
    | some e =>
      dsimp only
      by_cases he : e.isEmpty = true
      · rw [if_pos he]
        decide
      · rw [if_neg he]
        intro hnil
        rw [hnil] at he
        exact he rfl

/-- Witness exercising claim C9 at a concrete identifier and document. -/
theorem claim_C9_witness :
    (parse_article "9".data strayAffiliationDoc).pubmedID ≠ []
    ∧ (parse_article "9".data strayAffiliationDoc).title ≠ []
    ∧ (parse_article "9".data strayAffiliationDoc).publicationDate ≠ []
    ∧ (parse_article "9".data strayAffiliationDoc).nonAcademicAuthors ≠ []
    ∧ (parse_article "9".data strayAffiliationDoc).companyAffiliations ≠ []
    ∧ (parse_article "9".data strayAffiliationDoc).correspondingAuthorEmail ≠
        [] := by
  have h := claim_C9 "9".data strayAffiliationDoc
  exact ⟨h.1, h.2.1, h.2.2.1, h.2.2.2.1, h.2.2.2.2.1, h.2.2.2.2.2.1⟩
